import Mathlib

/-!
Verification of the multi-instance chat interface core: a shallow
embedding of the tool-calling generation loop (`chat_instance.py`,
`_run_generation_in_thread`), the shared API-client tool registry
(`api_clients/base_client.py`), the three provider stream loops and
model-listing functions (`api_clients/google_client.py`,
`api_clients/ollma_client.py`, `api_clients/openrouter_client.py`),
and the `start_streaming_generation` check-and-set, together with
proofs about the behaviours the specification describes.
-/

namespace ChatCore

/-! ## JSON values

Python dict/list/scalar values as they flow through the tool layer.
Arrays and objects are modelled with dedicated cons-list types so that
all recursion below is structural. -/

mutual

inductive Json where
  | jnull : Json
  | jbool (b : Bool) : Json
  | jnum (n : Int) : Json
  | jstr (s : String) : Json
  | jarr (xs : JsonArr) : Json
  | jobj (kvs : JsonObj) : Json

inductive JsonArr where
  | nil : JsonArr
  | cons (hd : Json) (tl : JsonArr) : JsonArr

inductive JsonObj where
  | nil : JsonObj
  | cons (key : String) (val : Json) (tl : JsonObj) : JsonObj

end

mutual

/-- `json.dumps` with its default separators (`, ` and `: `).
String-escape processing of the payload characters is elided: the
claims under verification never feed strings needing escapes. -/
def jsonEncode : Json → String
  | .jnull => "null"
  | .jbool b => if b then "true" else "false"
  | .jnum n => toString n
  | .jstr s => "\"" ++ s ++ "\""
  | .jarr xs => "[" ++ jsonEncodeArr xs ++ "]"
  | .jobj kvs => "\x7b" ++ jsonEncodeObj kvs ++ "\x7d"

def jsonEncodeArr : JsonArr → String
  | .nil => ""
  | .cons h .nil => jsonEncode h
  | .cons h t => jsonEncode h ++ ", " ++ jsonEncodeArr t

def jsonEncodeObj : JsonObj → String
  | .nil => ""
  | .cons k v .nil => "\"" ++ k ++ "\": " ++ jsonEncode v
  | .cons k v t => "\"" ++ k ++ "\": " ++ jsonEncode v ++ ", " ++ jsonEncodeObj t

end

/-- Python truthiness of a JSON-like value (`bool(x)`). -/
def jsonTruthy : Json → Bool
  | .jnull => false
  | .jbool b => b
  | .jnum n => n != 0
  | .jstr s => s != ""
  | .jarr .nil => false
  | .jarr _ => true
  | .jobj .nil => false
  | .jobj _ => true

/-- First binding of `key` in an object, like `dict.get`. -/
def jsonGet : JsonObj → String → Option Json
  | .nil, _ => none
  | .cons k v t, key => if k = key then some v else jsonGet t key

/-- `isinstance(x, dict)`. -/
def isDict : Json → Bool
  | .jobj _ => true
  | _ => false

/-- Rendering of `type(x)` for the values a tool argument can be. -/
def pyTypeNameOf : Json → String
  | .jnull => "<class \x27NoneType\x27>"
  | .jbool _ => "<class \x27bool\x27>"
  | .jnum _ => "<class \x27int\x27>"
  | .jstr _ => "<class \x27str\x27>"
  | .jarr _ => "<class \x27list\x27>"
  | .jobj _ => "<class \x27dict\x27>"

/-! ## Tool execution (`BaseApiClient.execute_tool`, base_client.py lines 82-111) -/

/-- A value returned by a Python tool callable: a string (passed
through unchanged), a JSON-serializable non-string, or a non-string
whose `json.dumps` raises `TypeError` and whose `str()` is `repr`. -/
inductive PyValue where
  | str (s : String) : PyValue
  | jsonable (v : Json) : PyValue
  | other (repr : String) : PyValue

/-- Outcome of invoking a tool callable: normal return or a raised
exception carrying `str(e)`. -/
inductive ToolOutcome where
  | ok (v : PyValue) : ToolOutcome
  | exn (msg : String) : ToolOutcome

/-- A registered tool callable: keyword arguments in, outcome out. -/
def ToolFn : Type := Json → ToolOutcome

/-- `json.dumps({"error": msg})`. -/
def errJson (msg : String) : String :=
  jsonEncode (Json.jobj (JsonObj.cons "error" (Json.jstr msg) JsonObj.nil))

/-- The body of the `try:` block of `execute_tool`: raises (as
`.error`) when the arguments are not a dict or the callable raises;
otherwise coerces the result (`json.dumps` for serializable
non-strings, `str()` fallback otherwise, strings unchanged). -/
def execute_tool_body (f : ToolFn) (name : String) (args : Json) : Except String String :=
  if isDict args then
    match f args with
    | .exn m => .error m
    | .ok (.str s) => .ok s
    | .ok (.jsonable v) => .ok (jsonEncode v)
    | .ok (.other r) => .ok r
  else
    .error ("Arguments for tool \x27" ++ name ++ "\x27 must be a dictionary, got " ++
      pyTypeNameOf args)

/-- The `try ... except` wrapper around the body: any exception is
converted to a JSON error payload string. -/
def execute_tool_run (f : ToolFn) (name : String) (args : Json) : String :=
  match execute_tool_body f name args with
  | .ok s => s
  | .error m => errJson ("Error during tool execution: " ++ m)

/-- Lookup in the `registered_tools` dict (insertion-ordered assoc list). -/
def lookupTool : List (String × ToolFn) → String → Option ToolFn
  | [], _ => none
  | (k, f) :: t, n => if k = n then some f else lookupTool t n

/-- `BaseApiClient.execute_tool`: unknown tools produce a JSON error
payload; otherwise the guarded body runs under the catch-all. -/
def execute_tool (tools : List (String × ToolFn)) (name : String) (args : Json) : String :=
  match lookupTool tools name with
  | none => errJson ("Tool \x27" ++ name ++ "\x27 not found.")
  | some f => execute_tool_run f name args

/-! ## Tool schema registration (`BaseApiClient.register_tool`, base_client.py lines 44-80) -/

/-- Provider-native tool schemas as cached in `tool_schemas`. The
three recognizable shapes of the name-extraction loop: an object with
a `name` attribute (Google `FunctionDeclaration`), a dict with a
nested `function.name` (Ollama), a dict with a top-level `name`
(OpenRouter); `anonDict` stands for a dict in neither shape. -/
inductive Schema where
  | gdecl (name : String) (description : String) (parameters : Option Json) : Schema
  | odict (name : String) (description : String) (parameters : Json) : Schema
  | rdict (name : String) (description : String) (parameters : Json) : Schema
  | anonDict (payload : Json) : Schema

/-- The provider-specific name extraction of `register_tool`:
object attribute, nested `function.name`, or top-level `name`. -/
def schemaName : Schema → Option String
  | .gdecl n _ _ => some n
  | .odict n _ _ => some n
  | .rdict n _ _ => some n
  | .anonDict _ => none

/-- The dedup step of `register_tool`: replace the first schema whose
extracted name matches, else append. -/
def replaceOrAppendSchema : List Schema → String → Schema → List Schema
  | [], _, new => [new]
  | s :: t, n, new =>
    if schemaName s = some n then new :: t else s :: replaceOrAppendSchema t n new

/-- `registered_tools[name] = func` (dict update). -/
def insertTool : List (String × ToolFn) → String → ToolFn → List (String × ToolFn)
  | [], n, f => [(n, f)]
  | (k, g) :: t, n, f => if k = n then (n, f) :: t else (k, g) :: insertTool t n f

/-- The tool-facing mutable state of a `BaseApiClient`. -/
structure ClientToolState where
  registered_tools : List (String × ToolFn)
  tool_schemas : List Schema

/-- `BaseApiClient.register_tool`. The callable is stored in
`registered_tools` first; then `format_tool_schema` runs (its outcome
is the `fmt` argument, since the concrete formatter is a subclass
dispatch that may raise). On formatting failure the exception is
re-raised (`.some` in the second component) with `tool_schemas`
untouched but the callable already stored. -/
def register_tool (st : ClientToolState) (name : String) (f : ToolFn)
    (fmt : Except String Schema) : ClientToolState × Option String :=
  let reg := insertTool st.registered_tools name f
  match fmt with
  | .error e => (⟨reg, st.tool_schemas⟩, some e)
  | .ok schema => (⟨reg, replaceOrAppendSchema st.tool_schemas name schema⟩, none)

/-! ## The three provider schema formatters (`format_tool_schema`) -/

/-- `{"type": "object", "properties": {}}`. -/
def emptyObjectSchema : Json :=
  Json.jobj (JsonObj.cons "type" (Json.jstr "object")
    (JsonObj.cons "properties" (Json.jobj JsonObj.nil) JsonObj.nil))

/-- The `type_map` of `_translate_schema_dict_in_place` (google_client.py). -/
def mapGoogleType (s : String) : String :=
  if s = "string" then "STRING"
  else if s = "integer" then "INTEGER"
  else if s = "number" then "NUMBER"
  else if s = "boolean" then "BOOLEAN"
  else if s = "array" then "ARRAY"
  else if s = "object" then "OBJECT"
  else "TYPE_UNSPECIFIED"

mutual

/-- `_translate_schema_dict_in_place`: replace `type` strings by the
Google enum names, recursing into `properties` values and `items`.
(A non-string `type` value raises in Python; such values are carried
through unchanged here, no claim depends on them.) -/
def gTranslateSchema : Json → Json
  | Json.jobj kvs => Json.jobj (gTranslateEntries kvs)
  | j => j

def gTranslateEntries : JsonObj → JsonObj
  | .nil => .nil
  | .cons k v t =>
    let v' :=
      if k = "type" then
        match v with
        | Json.jstr s => Json.jstr (mapGoogleType s.toLower)
        | w => w
      else if k = "properties" then
        match v with
        | Json.jobj props => Json.jobj (gTranslateProps props)
        | w => w
      else if k = "items" then gTranslateSchema v
      else v
    .cons k v' (gTranslateEntries t)

def gTranslateProps : JsonObj → JsonObj
  | .nil => .nil
  | .cons k v t => .cons k (gTranslateSchema v) (gTranslateProps t)

end

/-- `parameters and parameters.get("properties")` truthiness test. -/
def hasTruthyProps (p : Json) : Bool :=
  jsonTruthy p &&
    (match p with
     | Json.jobj kvs =>
       match jsonGet kvs "properties" with
       | some v => jsonTruthy v
       | none => false
     | _ => false)

/-- `GoogleClient.format_tool_schema` (success case): a
`FunctionDeclaration` whose parameters are the translated dict, or
`None` when the generic parameters have no truthy `properties`. -/
def google_format_tool_schema (name description : String) (parameters : Json) : Schema :=
  Schema.gdecl name description
    (if hasTruthyProps parameters then some (gTranslateSchema parameters) else none)

/-- `OllamaClient.format_tool_schema`: nested `function` dict with
defaulted description and parameters. -/
def ollama_format_tool_schema (name description : String) (parameters : Json) : Schema :=
  Schema.odict name
    (if description != "" then description else "Tool named " ++ name)
    (if jsonTruthy parameters then parameters else emptyObjectSchema)

/-- `OpenRouterClient.format_tool_schema`: flat dict with defaulted
description and parameters. -/
def openrouter_format_tool_schema (name description : String) (parameters : Json) : Schema :=
  Schema.rdict name
    (if description != "" then description else "Tool named " ++ name)
    (if jsonTruthy parameters then parameters else emptyObjectSchema)

/-! ## Model listing (`get_available_models` of the three clients) -/

/-- `sorted(list(set(xs)))` on strings. -/
def pySortedUnique (xs : List String) : List String :=
  List.insertionSort (· ≤ ·) xs.dedup

/-- `GoogleClient.DEFAULT_MODELS` (google_client.py lines 72-77). -/
def GOOGLE_DEFAULT_MODELS : List String :=
  ["gemini-1.5-pro", "gemini-1.5-flash", "gemini-2.0-flash", "gemini-pro"]

/-- One entry of `client.models.list()`: its `name` and whether
`"generateContent"` is among its supported methods/actions. -/
structure GModelInfo where
  name : String
  supportsGenerateContent : Bool

/-- The per-model id cleanup and dedup of the fetch loop. -/
def googleCollectModels (ms : List GModelInfo) : List String :=
  ms.foldl
    (fun acc m =>
      if m.supportsGenerateContent then
        let mid :=
          if m.name.startsWith "models/" then (m.name.splitOn "/").getLastD m.name
          else m.name
        if mid ∈ acc then acc else acc ++ [mid]
      else acc)
    []

/-- `GoogleClient.list_available_models_from_api` (the second, binding
definition, google_client.py lines 410-448): uninitialized client,
any exception from the live query, or an empty harvest all fall back
to `DEFAULT_MODELS`. `fetch` is the outcome of `client.models.list()`
plus iteration. -/
def google_list_available_models_from_api (clientOk : Bool)
    (fetch : Except String (List GModelInfo)) : List String :=
  if !clientOk then GOOGLE_DEFAULT_MODELS
  else
    match fetch with
    | .error _ => GOOGLE_DEFAULT_MODELS
    | .ok ms =>
      let available := googleCollectModels ms
      if available.isEmpty then GOOGLE_DEFAULT_MODELS else available

/-- The `/api/tags` payload as the Ollama client reads it: `none`
when the response has no `"models"` list (unexpected format),
otherwise each entry's `model_info.get("name")`. -/
def OllamaTags : Type := Option (List (Option String))

/-- `OllamaClient.get_available_models` (ollma_client.py lines
45-97): every request/decoding exception is caught, an error makes it
return the EMPTY list — the class has no hardcoded default model
list. On success, falsy names are skipped and the result is
`sorted(list(set(...)))`. -/
def ollama_get_available_models (resp : Except String OllamaTags) : List String :=
  match resp with
  | .error _ => []
  | .ok none => []
  | .ok (some entries) =>
    let names := entries.foldl
      (fun acc o =>
        match o with
        | some s => if s != "" then acc ++ [s] else acc
        | none => acc)
      []
    pySortedUnique names

/-- Pricing field of an OpenRouter `/models` entry as the client
distinguishes it: absent/ill-shaped (falls through to the
unconditional append), numeric and free, numeric and paid, or
unparsable floats (the `except ... continue` path). -/
inductive ORPricing where
  | absent : ORPricing
  | malformed : ORPricing
  | free : ORPricing
  | paid : ORPricing

structure ORModelInfo where
  id : Option String
  pricing : ORPricing

/-- The id-collection loop of `OpenRouterClient.get_available_models`:
free models are appended twice (once by the free filter, once by the
unconditional append), malformed pricing `continue`s, everything else
with a truthy id is appended once. -/
def openrouterCollectIds (ms : List ORModelInfo) : List String :=
  ms.foldl
    (fun acc m =>
      match m.id with
      | none => acc
      | some i =>
        if i == "" then acc
        else
          match m.pricing with
          | .malformed => acc
          | .free => acc ++ [i, i]
          | _ => acc ++ [i])
    []

/-- `OpenRouterClient.get_available_models` (openrouter_client.py
lines 71-152): every exception path returns the EMPTY list (the
`KNOWN_MODELS_FALLBACK` is commented out in the source); a response
without a `"data"` list yields the empty harvest; success is deduped
and sorted. -/
def openrouter_get_available_models (resp : Except String (Option (List ORModelInfo))) :
    List String :=
  match resp with
  | .error _ => []
  | .ok none => pySortedUnique []
  | .ok (some ms) => pySortedUnique (openrouterCollectIds ms)

/-! ## Messages and the normalized event vocabulary -/

/-- A tool-call request as the loop stores it (`{"id", "name",
"arguments"}`; the Ollama variant also stores a `"type"` key the loop
never reads). -/
structure ToolCall where
  id : String
  name : String
  arguments : Json

/-- One turn of `chat_history` / the working message list. Assistant
messages appended by the loop carry a timestamp (modelled as a
monotone tick); tool messages and the prepended system message carry
none, exactly as the Python dicts do. -/
structure Message where
  role : String
  content : String
  name : Option String := none
  tool_calls : List ToolCall := []
  timestamp : Option Nat := none

/-- UI-feedback event kinds an adapter may yield besides the
vocabulary events (`chat_instance.py` line 546). -/
inductive UiKind where
  | statusK : UiKind
  | toolCallK : UiKind
  | toolResultK : UiKind

def uiKindStr : UiKind → String
  | .statusK => "status"
  | .toolCallK => "tool_call"
  | .toolResultK => "tool_result"

/-- The `(chunk_type, content_data)` pairs an API client generator
yields. In `toolCalls`, `text` is `content_data.get("text", ...)`:
`none` models an absent key. -/
inductive ClientEvent where
  | chunk (text : String) : ClientEvent
  | toolCalls (calls : List ToolCall) (text : Option String) : ClientEvent
  | finish (text : String) : ClientEvent
  | errorEv (msg : String) : ClientEvent
  | stopped (text : String) : ClientEvent
  | ui (kind : UiKind) (payload : String) : ClientEvent

/-- One `send_message_stream_yield` invocation: the events it yields,
then optionally an exception it raises when the loop asks for the
next event (a mid-stream exception is the same as raising after the
events already consumed). -/
structure AdapterRun where
  events : List ClientEvent
  raises : Option String

/-- Items the loop puts on the SSE queue (each is
`json.dumps({"type": ..., ...})` in Python; the terminal `None`
marker is `endMark`). -/
inductive SseItem where
  | chunkI (s : String) : SseItem
  | statusI (s : String) : SseItem
  | toolResultI (name : String) (preview : String) : SseItem
  | uiEvt (etype : String) (payload : String) : SseItem
  | terminalI (etype : String) (content : String) : SseItem
  | endMark : SseItem

/-! ## The inner per-cycle stream consumption
(`chat_instance.py` lines 513-548) -/

/-- How one API-client stream ended, from the loop's point of view:
the flag/accumulator state after the `for ... in ... yield` loop. -/
inductive StreamVerdict where
  | toolCallsV (calls : List ToolCall) : StreamVerdict
  | finishV : StreamVerdict
  | errorV (msg : String) : StreamVerdict
  | stoppedV : StreamVerdict
  | exhaustedV (raised : Option String) : StreamVerdict

structure InnerResult where
  verdict : StreamVerdict
  accum : String
  queue : List SseItem
  nextRead : Nat

/-- The inner `for chunk_type, content_data in
send_message_stream_yield(...)` loop. `reads k` is the value returned
by the `k`-th `stop_event.is_set()` call of the run; one read is
consumed per received event (line 516), before dispatch. On the
`error` event the accumulated text is left unchanged (the source
assigns the partial text to a misspelled local, line 536). -/
def processEvents (reads : Nat → Bool) :
    List ClientEvent → Option String → Nat → String → List SseItem → InnerResult
  | [], raised, k, acc, q => ⟨.exhaustedV raised, acc, q, k⟩
  | e :: rest, raised, k, acc, q =>
    if reads k then ⟨.stoppedV, acc, q, k + 1⟩
    else
      match e with
      | .chunk t =>
        processEvents reads rest raised (k + 1) (acc ++ t) (q ++ [SseItem.chunkI t])
      | .toolCalls calls txt => ⟨.toolCallsV calls, txt.getD acc, q, k + 1⟩
      | .finish t => ⟨.finishV, t, q, k + 1⟩
      | .errorEv m => ⟨.errorV m, acc, q, k + 1⟩
      | .stopped t => ⟨.stoppedV, t, q, k + 1⟩
      | .ui kind p =>
        processEvents reads rest raised (k + 1) acc (q ++ [SseItem.uiEvt (uiKindStr kind) p])

/-! ## Tool-execution phase of a cycle (lines 559-647) -/

/-- `raw_tool_result_str[:200] + "..."`. -/
def previewOf (raw : String) : String := raw.take 200 ++ "..."

/-- The per-call loop of the tool phase: execute each call in the
provider's order, build one `tool` message per call (role, tool name,
string content), and the `status`/`tool_result` queue items pushed on
the way. `rewrite` abstracts the `search_for_tool` special case
(lines 581-633: dynamic registration plus result rewriting — a side
effect outside this state model): it maps the raw result to the
content placed in the tool message plus the status lines pushed. -/
def runToolCalls (tools : List (String × ToolFn)) (rewrite : String → String × List String) :
    List ToolCall → List Message × List SseItem
  | [] => ([], [])
  | c :: rest =>
    let raw := execute_tool tools c.name c.arguments
    let cs := if c.name = "search_for_tool" then rewrite raw else (raw, [])
    let msg : Message := { role := "tool", content := cs.1, name := some c.name }
    let items := (cs.2.map SseItem.statusI) ++ [SseItem.toolResultI c.name (previewOf raw)]
    let rec' := runToolCalls tools rewrite rest
    (msg :: rec'.1, items ++ rec'.2)

/-! ## The outer generation loop (`_run_generation_in_thread`) -/

structure LoopState where
  msgs : List Message
  queue : List SseItem
  readIdx : Nat
  tick : Nat
  lastText : String
  cyclesDone : Nat

structure LoopEnd where
  finalType : String
  finalContent : String
  msgs : List Message
  queue : List SseItem
  tick : Nat
  cyclesDone : Nat

/-- One iteration of the `while cycles < max_tool_cycles` body
(lines 496-658): stop check before the API call (line 499); inner
stream consumption; the post-call check at line 551 (one more
`is_set()` read, also when a terminal event was already received);
then the error / tool-execution / finish branches. `.inl` is a
`break` out of the loop, `.inr` the `continue` into the next cycle.
A stream that raises jumps to the outer `except`
("Internal Error: ..."). -/
def generation_cycle_step (adapter : List Message → AdapterRun)
    (tools : List (String × ToolFn)) (reads : Nat → Bool)
    (rewrite : String → String × List String) (st : LoopState) : LoopEnd ⊕ LoopState :=
  let done := st.cyclesDone + 1
  if reads st.readIdx then
    .inl ⟨"stopped", st.lastText, st.msgs, st.queue, st.tick, done⟩
  else
    let run := adapter st.msgs
    let r := processEvents reads run.events run.raises (st.readIdx + 1) "" st.queue
    match r.verdict with
    | .exhaustedV (some e) =>
      .inl ⟨"error", "Internal Error: " ++ e, st.msgs, r.queue, st.tick, done⟩
    | .stoppedV =>
      .inl ⟨"stopped", r.accum ++ " [Stopped]", st.msgs, r.queue, st.tick, done⟩
    | .errorV m =>
      if reads r.nextRead then
        .inl ⟨"stopped", r.accum ++ " [Stopped]", st.msgs, r.queue, st.tick, done⟩
      else .inl ⟨"error", m, st.msgs, r.queue, st.tick, done⟩
    | .exhaustedV none =>
      if reads r.nextRead then
        .inl ⟨"stopped", r.accum ++ " [Stopped]", st.msgs, r.queue, st.tick, done⟩
      else .inl ⟨"error", "API stream ended unexpectedly.", st.msgs, r.queue, st.tick, done⟩
    | .finishV =>
      if reads r.nextRead then
        .inl ⟨"stopped", r.accum ++ " [Stopped]", st.msgs, r.queue, st.tick, done⟩
      else
        .inl ⟨"finish", r.accum,
          st.msgs ++ [{ role := "assistant", content := r.accum, timestamp := some st.tick }],
          r.queue, st.tick + 1, done⟩
    | .toolCallsV calls =>
      if reads r.nextRead then
        .inl ⟨"stopped", r.accum ++ " [Stopped]", st.msgs, r.queue, st.tick, done⟩
      else if calls.isEmpty then
        -- `if tool_calls_from_api:` is falsy for an empty list → finish branch
        .inl ⟨"finish", r.accum,
          st.msgs ++ [{ role := "assistant", content := r.accum, timestamp := some st.tick }],
          r.queue, st.tick + 1, done⟩
      else
        let aMsg : Message :=
          { role := "assistant", content := r.accum, tool_calls := calls,
            timestamp := some st.tick }
        let q1 := r.queue ++
          [SseItem.statusI ("Executing " ++ toString calls.length ++ " tool(s)...")]
        let tr := runToolCalls tools rewrite calls
        .inr
          { msgs := st.msgs ++ [aMsg] ++ tr.1
          , queue := q1 ++ tr.2
          , readIdx := r.nextRead + 1
          , tick := st.tick + 1
          , lastText := r.accum
          , cyclesDone := done }

/-- The `while cycles < max_tool_cycles` loop, with
`fuel = max_tool_cycles - cycles`. Budget exhaustion leaves the
default `final_event_type = "finish"` with the text of the last
cycle. -/
def generation_cycles (adapter : List Message → AdapterRun)
    (tools : List (String × ToolFn)) (reads : Nat → Bool)
    (rewrite : String → String × List String) : Nat → LoopState → LoopEnd
  | 0, st => ⟨"finish", st.lastText, st.msgs, st.queue, st.tick, st.cyclesDone⟩
  | fuel + 1, st =>
    match generation_cycle_step adapter tools reads rewrite st with
    | .inl e => e
    | .inr st' => generation_cycles adapter tools reads rewrite fuel st'

/-- `max_tool_cycles = 5` (line 490). -/
def max_tool_cycles : Nat := 5

/-- Observable outcome of one `_run_generation_in_thread` run. -/
structure RunResult where
  finalType : String
  finalContent : String
  committed : List Message
  queue : List SseItem
  isGeneratingAfter : Bool
  saved : Bool
  cyclesUsed : Nat

/-- `_run_generation_in_thread` (lines 487-690): the cycle loop, then
the `finally` block — clear `is_generating`, commit the working list
as the official history unless the run ended in `error` (line 672),
push exactly one terminal event then the `None` end marker, request a
best-effort state save. `histBefore` is `self.chat_history` at entry,
`initialMessages` the prepared working copy. -/
def run_generation_in_thread (adapter : List Message → AdapterRun)
    (tools : List (String × ToolFn)) (reads : Nat → Bool)
    (rewrite : String → String × List String)
    (histBefore initialMessages : List Message) (t0 : Nat) : RunResult :=
  let e := generation_cycles adapter tools reads rewrite max_tool_cycles
    ⟨initialMessages, [], 0, t0, "", 0⟩
  { finalType := e.finalType
  , finalContent := e.finalContent
  , committed := if e.finalType = "error" then histBefore else e.msgs
  , queue := e.queue ++ [SseItem.terminalI e.finalType e.finalContent, SseItem.endMark]
  , isGeneratingAfter := false
  , saved := true
  , cyclesUsed := e.cyclesDone }

/-- `ChatInstance._prepare_messages_for_api` (lines 439-448). -/
def prepare_messages_for_api (systemPrompt : String) (history : List Message) : List Message :=
  if systemPrompt = "" then history
  else
    match history with
    | m :: _ =>
      if m.role = "system" then history
      else { role := "system", content := systemPrompt } :: history
    | [] => [{ role := "system", content := systemPrompt }]

/-! ## Google stream loop
(`GoogleClient.send_message_stream_yield`, google_client.py lines 348-399)

Only the frame-consumption loop is modelled; request preparation
happens before any frame arrives and yields only `error` events on
failure. The cancellation signal is modelled by the number `n` of
`is_set()` checks that still return `False` before the signal is
observed set — monotone, as a `threading.Event` is. -/

/-- One chunk of the vendor stream: its finish reason (with safety
details for the `SAFETY` case), its text (`none` when accessing
`.text` raises, `some ""` is falsy), and the extracted function
calls as (name, args) pairs. -/
structure GFrame where
  finishReason : Option String
  safetyDetails : String := ""
  text : Option String := none
  calls : List (String × Json) := []

/-- Reason names that do NOT terminate with an error (line 359). -/
def googleCleanReason (rn : String) : Bool :=
  rn = "STOP" || rn = "MAX_TOKENS" || rn = "UNSPECIFIED"

/-- The error message for an abnormal finish reason, `none` when the
frame is clean. -/
def gAbnormal (f : GFrame) : Option String :=
  match f.finishReason with
  | none => none
  | some rn =>
    if googleCleanReason rn then none
    else if rn = "SAFETY" then some ("Content stopped: SAFETY. " ++ f.safetyDetails)
    else some ("Content stopped: " ++ rn)

/-- Ids `gc_{name}_{time}_{len}`; the millisecond clock is frozen to
`tms` (the real ids only need to be unique within a run). -/
def googleMkCalls (tms : Nat) : Nat → List (String × Json) → List ToolCall
  | _, [] => []
  | startLen, (n, a) :: rest =>
    ⟨"gc_" ++ n ++ "_" ++ toString tms ++ "_" ++ toString startLen, n, a⟩ ::
      googleMkCalls tms (startLen + 1) rest

def google_stream_loop (tms : Nat) :
    List GFrame → Nat → String → List ToolCall → List ClientEvent
  | [], _, acc, calls =>
    if calls.isEmpty then [ClientEvent.finish acc]
    else [ClientEvent.toolCalls calls (some acc)]
  | _ :: _, 0, acc, _ => [ClientEvent.stopped acc]
  | f :: rest, n + 1, acc, calls =>
    match gAbnormal f with
    | some emsg => [ClientEvent.errorEv emsg]
    | none =>
      let calls' := calls ++ googleMkCalls tms calls.length f.calls
      match f.text with
      | some t =>
        if t = "" then google_stream_loop tms rest n acc calls'
        else ClientEvent.chunk t :: google_stream_loop tms rest n (acc ++ t) calls'
      | none => google_stream_loop tms rest n acc calls'

/-! ## Ollama stream loop
(`OllamaClient.send_message_stream_yield`, ollma_client.py lines 252-292) -/

/-- One decoded line of the `/api/chat` stream. -/
structure OChunk where
  errorKey : Option String := none
  msgRole : Option String := none
  msgContent : Option String := none
  msgToolCalls : List (String × Json) := []
  done : Bool := false

/-- One raw line: falsy keep-alive, JSON-decode failure, or a chunk. -/
inductive OLine where
  | blank : OLine
  | badJson (raw : String) : OLine
  | chunkL (c : OChunk) : OLine

/-- Ids `ollama_{name}_{time}_{len}` with frozen clock, mirroring
`googleMkCalls`. -/
def ollamaMkCalls (tms : Nat) : Nat → List (String × Json) → List ToolCall
  | _, [] => []
  | startLen, (n, a) :: rest =>
    ⟨"ollama_" ++ n ++ "_" ++ toString tms ++ "_" ++ toString startLen, n, a⟩ ::
      ollamaMkCalls tms (startLen + 1) rest

/-- The `for line in response.iter_lines()` loop. A line with a
`done: true` marker terminates with `finish`/`tool_calls`; if the
lines end without one, the post-loop `if not stop_event.is_set()`
read decides between a late terminal yield and yielding nothing. -/
def ollama_stream_loop (tms : Nat) :
    List OLine → Nat → String → List ToolCall → List ClientEvent
  | [], 0, _, _ => []
  | [], _ + 1, acc, calls =>
    if calls.isEmpty then [ClientEvent.finish acc]
    else [ClientEvent.toolCalls calls (some acc)]
  | _ :: _, 0, acc, _ => [ClientEvent.stopped acc]
  | l :: rest, n + 1, acc, calls =>
    match l with
    | .blank => ollama_stream_loop tms rest n acc calls
    | .badJson _ => ollama_stream_loop tms rest n acc calls
    | .chunkL c =>
      match c.errorKey with
      | some e => [ClientEvent.errorEv ("Ollama API Error: " ++ e)]
      | none =>
        let t := if c.msgRole = some "assistant" then c.msgContent.getD "" else ""
        let acc' := acc ++ t
        let calls' := calls ++ ollamaMkCalls tms calls.length c.msgToolCalls
        let tail :=
          if c.done then
            if calls'.isEmpty then [ClientEvent.finish acc']
            else [ClientEvent.toolCalls calls' (some acc')]
          else ollama_stream_loop tms rest n acc' calls'
        if t = "" then tail else ClientEvent.chunk t :: tail

/-! ## OpenRouter stream loop
(`OpenRouterClient.send_message_stream_yield`, openrouter_client.py lines 294-361) -/

/-- A streamed tool-call fragment: list index, optional id (first
fragment), optional type, and the function part (name, arguments)
when present. -/
structure ORToolChunk where
  index : Nat
  id : Option String := none
  ctype : Option String := none
  fn : Option (Option String × Option String) := none

/-- An aggregation entry of `current_tool_calls_agg` (the
missing-`id` creation path stores no id/type/name keys). The case
where Python stores a raw `None` for name/arguments on creation is
collapsed to `""`/`""` (that path crashes later in Python and no
claim reaches it). -/
structure AggEntry where
  id : Option String
  ctype : Option String
  fname : Option String
  fargs : String

/-- One frame of the OpenAI-SDK stream: delta content, delta tool
fragments, finish reason. A frame with empty `choices` is one with
all three absent. -/
structure ORFrame where
  content : Option String := none
  toolChunks : List ORToolChunk := []
  finishReason : Option String := none

def aggFind : List (Nat × AggEntry) → Nat → Option AggEntry
  | [], _ => none
  | (i, e) :: t, idx => if i = idx then some e else aggFind t idx

def aggAppendArgs : List (Nat × AggEntry) → Nat → String → List (Nat × AggEntry)
  | [], _, _ => []
  | (i, e) :: t, idx, a =>
    if i = idx then (i, { e with fargs := e.fargs ++ a }) :: t
    else (i, e) :: aggAppendArgs t idx a

/-- Processing one `tool_call_chunk` of a delta (lines 312-331). -/
def orAggStep (agg : List (Nat × AggEntry)) (tc : ORToolChunk) : List (Nat × AggEntry) :=
  match aggFind agg tc.index with
  | none =>
    match tc.id with
    | some i =>
      agg ++ [(tc.index,
        ⟨some i, some (tc.ctype.getD "function"),
         some ((tc.fn.map (fun p => p.1.getD "")).getD ""),
         ((tc.fn.map (fun p => p.2.getD "")).getD "")⟩)]
    | none => agg ++ [(tc.index, ⟨none, none, none, ""⟩)]
  | some _ =>
    match tc.fn with
    | some (_, some a) => if a = "" then agg else aggAppendArgs agg tc.index a
    | _ => agg

/-- Finalize one aggregated entry into the loop's tool-call dict;
`jsonParse` stands for `json.loads`, with the source's fallback
payload on parse failure. -/
def orFinalizeCall (jsonParse : String → Option Json) (e : AggEntry) : ToolCall :=
  { id := e.id.getD ""
  , name := e.fname.getD ""
  , arguments :=
      match jsonParse e.fargs with
      | some j => j
      | none =>
        Json.jobj (JsonObj.cons "error" (Json.jstr "failed to parse arguments")
          (JsonObj.cons "raw_arguments" (Json.jstr e.fargs) JsonObj.nil)) }

/-- The terminal yield once a finish reason arrives (lines 334-361).
An aggregation entry created without an id makes the `tool_calls`
branch raise `KeyError`, which the outer `except` turns into a
single `error` event. -/
def orFinishEvent (jsonParse : String → Option Json) (fr : String)
    (agg : List (Nat × AggEntry)) (acc : String) : ClientEvent :=
  if fr = "tool_calls" then
    let entries := (List.insertionSort (fun a b => a.1 ≤ b.1) agg).map (fun p => p.2)
    if entries.any (fun e => e.id.isNone) then
      ClientEvent.errorEv "Unexpected Client Error: KeyError - \x27id\x27"
    else ClientEvent.toolCalls (entries.map (orFinalizeCall jsonParse)) (some acc)
  else if fr = "stop" then ClientEvent.finish acc
  else if fr = "length" then ClientEvent.finish (acc ++ "\n[MAX TOKENS REACHED]")
  else if fr = "content_filter" then ClientEvent.errorEv "Content filtered by API."
  else ClientEvent.errorEv ("Generation stopped: " ++ fr)

/-- The `for chunk in stream` loop. A stream that ends without any
finish reason yields no terminal event at all (the generator simply
returns). -/
def openrouter_stream_loop (jsonParse : String → Option Json) :
    List ORFrame → Nat → String → List (Nat × AggEntry) → List ClientEvent
  | [], _, _, _ => []
  | _ :: _, 0, acc, _ => [ClientEvent.stopped acc]
  | f :: rest, n + 1, acc, agg =>
    let acc' := acc ++ (f.content.getD "")
    let agg' := f.toolChunks.foldl orAggStep agg
    let lead :=
      match f.content with
      | some t => if t = "" then [] else [ClientEvent.chunk t]
      | none => []
    match f.finishReason with
    | some fr => lead ++ [orFinishEvent jsonParse fr agg' acc']
    | none => lead ++ openrouter_stream_loop jsonParse rest n acc' agg'

/-! ## The `start_streaming_generation` check-and-set
(chat_instance.py lines 450-485)

`if self.is_generating: reject` (line 461) and `self.is_generating =
True` (line 468) are separate plain statements with no lock. Two
concurrent callers are modelled as two-step programs over the shared
flag, interleaved by an arbitrary schedule. -/

inductive CallerPos where
  | ready : CallerPos
  | passed : CallerPos
  | rejected : CallerPos
  | launched : CallerPos
deriving DecidableEq

structure RaceState where
  flag : Bool
  posA : CallerPos
  posB : CallerPos
deriving DecidableEq

/-- One caller's next statement: the flag check, or the set-and-spawn. -/
def callerStep (flag : Bool) : CallerPos → Bool × CallerPos
  | .ready => if flag then (flag, .rejected) else (flag, .passed)
  | .passed => (true, .launched)
  | p => (flag, p)

inductive Who where
  | A : Who
  | B : Who

def raceStep (s : RaceState) (w : Who) : RaceState :=
  match w with
  | .A => let r := callerStep s.flag s.posA; { s with flag := r.1, posA := r.2 }
  | .B => let r := callerStep s.flag s.posB; { s with flag := r.1, posB := r.2 }

/-- Run an interleaving from the idle state (`is_generating = False`,
both callers about to execute the check). -/
def runRace (sched : List Who) : RaceState :=
  sched.foldl raceStep ⟨false, .ready, .ready⟩

/-- How many of the two callers spawned a generation worker. -/
def launchedCount (s : RaceState) : Nat :=
  (if s.posA = .launched then 1 else 0) + (if s.posB = .launched then 1 else 0)

/-! ## Shared helper lemmas -/

theorem lookupTool_insertTool (l : List (String × ToolFn)) (n : String) (f : ToolFn) :
    lookupTool (insertTool l n f) n = some f := by
  induction l with
  | nil => simp [insertTool, lookupTool]
  | cons hd tl ih =>
    obtain ⟨k, g⟩ := hd
    by_cases hk : k = n
    · simp [insertTool, hk, lookupTool]
    · simp [insertTool, hk, lookupTool, ih]

/-! ## C7 — the `is_generating` check-and-set race -/

/-- C7: the claim says the `is_generating` check and set act as a
race-free atomic test-and-set so that of two concurrent
`startGeneration` callers exactly one spawns a worker. The code is a
plain read-then-write: under the interleaving where both callers
execute the `if self.is_generating` check before either executes
`self.is_generating = True`, BOTH callers spawn a generation worker. -/
theorem c7_plain_flag_race_two_spawns :
    launchedCount (runRace [Who.A, Who.B, Who.A, Who.B]) = 2 := by decide

/-! ## C3 — model-listing fallback behaviour -/

/-- C3 counterexample: on a failed provider query
`OllamaClient.get_available_models` returns the EMPTY list — the
claim says every adapter returns a small hardcoded default list
rather than an empty list, but the Ollama client has no default
list at all. -/
theorem c3_ollama_failure_returns_empty_list :
    ollama_get_available_models
      (Except.error "Could not connect to Ollama. Is Ollama running?") = [] := rfl

/-- C3 amended: none of the three `get_available_models`
implementations raises (each is a total function of the query
outcome); the Google client falls back to its hardcoded
`DEFAULT_MODELS` on an uninitialized client or any query failure,
while the Ollama and OpenRouter clients return the empty list on any
query failure. -/
theorem c3_model_listing_fallbacks :
    (∀ fetch, google_list_available_models_from_api false fetch = GOOGLE_DEFAULT_MODELS) ∧
    (∀ e, google_list_available_models_from_api true (Except.error e) = GOOGLE_DEFAULT_MODELS) ∧
    (∀ e, ollama_get_available_models (Except.error e) = []) ∧
    (∀ e, openrouter_get_available_models (Except.error e) = []) :=
  ⟨fun _ => rfl, fun _ => rfl, fun _ => rfl, fun _ => rfl⟩

/-! ## C10 — non-atomicity of `register_tool` on formatting failure -/

/-- C10: when `format_tool_schema` raises, `register_tool` re-raises
(the second component carries the exception), leaves `tool_schemas`
untouched, but has already stored the callable in
`registered_tools`, so `execute_tool` on that name still runs the
callable's body. -/
theorem c10_register_tool_nonatomic :
    ∀ (st : ClientToolState) (name : String) (f : ToolFn) (e : String) (args : Json),
      (register_tool st name f (Except.error e)).2 = some e ∧
      (register_tool st name f (Except.error e)).1.tool_schemas = st.tool_schemas ∧
      lookupTool (register_tool st name f (Except.error e)).1.registered_tools name = some f ∧
      execute_tool (register_tool st name f (Except.error e)).1.registered_tools name args =
        execute_tool_run f name args := by
  intro st name f e args
  refine ⟨rfl, rfl, lookupTool_insertTool _ _ _, ?_⟩
  show execute_tool (insertTool st.registered_tools name f) name args = execute_tool_run f name args
  rw [execute_tool, lookupTool_insertTool]

/-! ## C4 — `execute_tool` never raises and coerces results -/

/-- C4: `execute_tool` is total for every name and argument value:
an unknown tool and a raising callable both produce a JSON payload
with an `error` key; a non-string JSON-serializable result is
`json.dumps`-encoded; a non-serializable result falls back to
`str()`; a string result passes through unchanged; non-dict
arguments become a caught `TypeError` payload. -/
theorem c4_execute_tool_never_raises :
    ∀ (tools : List (String × ToolFn)) (name : String) (args : Json),
      (lookupTool tools name = none →
        execute_tool tools name args = errJson ("Tool \x27" ++ name ++ "\x27 not found.")) ∧
      (∀ f, lookupTool tools name = some f →
        (isDict args = true →
          (∀ m, f args = ToolOutcome.exn m →
            execute_tool tools name args = errJson ("Error during tool execution: " ++ m)) ∧
          (∀ s, f args = ToolOutcome.ok (PyValue.str s) → execute_tool tools name args = s) ∧
          (∀ v, f args = ToolOutcome.ok (PyValue.jsonable v) →
            execute_tool tools name args = jsonEncode v) ∧
          (∀ r, f args = ToolOutcome.ok (PyValue.other r) →
            execute_tool tools name args = r)) ∧
        (isDict args = false →
          execute_tool tools name args =
            errJson ("Error during tool execution: " ++ ("Arguments for tool \x27" ++ name ++
              "\x27 must be a dictionary, got " ++ pyTypeNameOf args)))) := by
  intro tools name args
  constructor
  · intro hnone
    simp [execute_tool, hnone]
  · intro f hf
    constructor
    · intro hdict
      refine ⟨?_, ?_, ?_, ?_⟩
      · intro m hm
        simp [execute_tool, hf, execute_tool_run, execute_tool_body, hdict, hm]
      · intro s hs
        simp [execute_tool, hf, execute_tool_run, execute_tool_body, hdict, hs]
      · intro v hv
        simp [execute_tool, hf, execute_tool_run, execute_tool_body, hdict, hv]
      · intro r hr
        simp [execute_tool, hf, execute_tool_run, execute_tool_body, hdict, hr]
    · intro hnd
      simp [execute_tool, hf, execute_tool_run, execute_tool_body, hnd]

/-- A tool that always raises, and empty-dict arguments. -/
def boomTool : ToolFn := fun _ => ToolOutcome.exn "kaboom"

def emptyDictArgs : Json := Json.jobj JsonObj.nil

/-- C4 witness: concrete raising tool yields the JSON error payload. -/
theorem c4_witness :
    execute_tool [("boom", boomTool)] "boom" emptyDictArgs =
      errJson "Error during tool execution: kaboom" :=
  (((c4_execute_tool_never_raises [("boom", boomTool)] "boom" emptyDictArgs).2
    boomTool rfl).1 rfl).1 "kaboom" rfl

/-! ## C9 — at most one schema per name, replacement in place -/

/-- Number of cached schemas whose extracted name is `n`. -/
def countName (l : List Schema) (n : String) : Nat :=
  (l.filter (fun s => schemaName s == some n)).length

/-- The cache invariant: at most one schema entry per tool name. -/
def uniqNames (l : List Schema) : Prop := ∀ n, countName l n ≤ 1

/-- One `register_tool` call as it affects `tool_schemas`: a
formatting failure leaves the cache untouched (the exception
propagates before the dedup loop), success replaces-or-appends. -/
def applySchemaReg (schemas : List Schema) (p : String × Except String Schema) : List Schema :=
  match p.2 with
  | .error _ => schemas
  | .ok s => replaceOrAppendSchema schemas p.1 s

/-- A registration attempt is well-formed when its formatted schema
(if any) carries the registered name — which all three provider
formatters guarantee. -/
def stepOkB (p : String × Except String Schema) : Bool :=
  match p.2 with
  | .ok s => schemaName s == some p.1
  | .error _ => true

theorem countName_replace_self (l : List Schema) (n : String) (s : Schema)
    (h : schemaName s = some n) :
    countName (replaceOrAppendSchema l n s) n =
      if countName l n = 0 then 1 else countName l n := by
  induction l with
  | nil => simp [replaceOrAppendSchema, countName, h]
  | cons e t ih =>
    by_cases he : schemaName e = some n
    · simp [replaceOrAppendSchema, he, countName, List.filter, h]
    · have he' : (schemaName e == some n) = false := by
        simp [he]
      simp only [replaceOrAppendSchema, he, if_false]
      simp only [countName, List.filter, he'] at ih ⊢
      exact ih

theorem countName_replace_other (l : List Schema) (n m : String) (s : Schema)
    (h : schemaName s = some n) (hm : m ≠ n) :
    countName (replaceOrAppendSchema l n s) m = countName l m := by
  have hs : (schemaName s == some m) = false := by
    simp [h]
    exact fun heq => hm heq.symm
  induction l with
  | nil => simp [replaceOrAppendSchema, countName, hs]
  | cons e t ih =>
    by_cases he : schemaName e = some n
    · have he' : (schemaName e == some m) = false := by
        simp [he]
        exact fun heq => hm heq.symm
      have hnm : (n == m) = false := by
        simp
        exact fun heq => hm heq.symm
      simp [replaceOrAppendSchema, he, countName, List.filter, hs, he', hnm]
    · simp only [replaceOrAppendSchema, he, if_false]
      simp only [countName, List.filter] at ih ⊢
      cases hb : schemaName e == some m <;> simp [hb] at ih ⊢ <;> exact ih

theorem uniqNames_replaceOrAppend {l : List Schema} (hu : uniqNames l)
    {n : String} {s : Schema} (h : schemaName s = some n) :
    uniqNames (replaceOrAppendSchema l n s) := by
  intro m
  by_cases hm : m = n
  · subst hm
    rw [countName_replace_self l m s h]
    split
    · exact le_refl 1
    · exact hu m
  · rw [countName_replace_other l n m s h hm]
    exact hu m

theorem uniqNames_foldl (steps : List (String × Except String Schema))
    (hok : steps.all stepOkB = true) :
    ∀ (acc : List Schema), uniqNames acc → uniqNames (steps.foldl applySchemaReg acc) := by
  induction steps with
  | nil => intro acc hacc; exact hacc
  | cons p t ih =>
    intro acc hacc
    simp only [List.all_cons, Bool.and_eq_true] at hok
    refine ih hok.2 (applySchemaReg acc p) ?_
    unfold applySchemaReg
    match hp : p.2 with
    | .error _ => exact hacc
    | .ok s =>
      have hname : schemaName s = some p.1 := by
        have := hok.1
        unfold stepOkB at this
        rw [hp] at this
        exact eq_of_beq this
      exact uniqNames_replaceOrAppend hacc hname

/-- C9: starting from an empty cache, any sequence of `register_tool`
calls (each formatting either failing or producing a schema carrying
its registered name, as the three provider formatters do across
their three shapes) leaves at most one cached schema per tool name;
and when a name is already cached, re-registration replaces the
entry in place — the cache length does not grow. -/
theorem c9_schema_cache_unique :
    (∀ (steps : List (String × Except String Schema)), steps.all stepOkB = true →
      uniqNames (steps.foldl applySchemaReg [])) ∧
    (∀ (l : List Schema) (n : String) (s : Schema), schemaName s = some n →
      countName l n ≠ 0 → (replaceOrAppendSchema l n s).length = l.length) := by
  constructor
  · intro steps hok
    exact uniqNames_foldl steps hok [] (fun n => by simp [countName])
  · intro l n s _ hcount
    induction l with
    | nil => simp [countName] at hcount
    | cons e t ih =>
      by_cases he : schemaName e = some n
      · simp [replaceOrAppendSchema, he]
      · have he' : (schemaName e == some n) = false := by simp [he]
        simp only [countName, List.filter, he'] at hcount
        simp only [replaceOrAppendSchema, he, if_false, List.length_cons]
        rw [ih hcount]

/-- A mixed-shape registration sequence: a Google
`FunctionDeclaration`, an Ollama nested dict re-registering the same
name, an OpenRouter flat dict, and a failing format. -/
def regSeqSample : List (String × Except String Schema) :=
  [("alpha", Except.ok (google_format_tool_schema "alpha" "first" emptyObjectSchema)),
   ("alpha", Except.ok (ollama_format_tool_schema "alpha" "second" Json.jnull)),
   ("beta", Except.ok (openrouter_format_tool_schema "beta" "" Json.jnull)),
   ("gamma", Except.error "Schema build failed")]

/-- C9 witness: the mixed-shape sequence satisfies the name
condition and yields a unique-name cache; re-registering `alpha`
into the resulting two-entry cache keeps its length. -/
theorem c9_witness :
    uniqNames (regSeqSample.foldl applySchemaReg []) ∧
    (replaceOrAppendSchema (regSeqSample.foldl applySchemaReg []) "alpha"
      (Schema.rdict "alpha" "third" Json.jnull)).length =
      (regSeqSample.foldl applySchemaReg []).length :=
  ⟨c9_schema_cache_unique.1 regSeqSample (by decide),
   c9_schema_cache_unique.2 (regSeqSample.foldl applySchemaReg []) "alpha"
     (Schema.rdict "alpha" "third" Json.jnull) rfl (by decide)⟩

/-! ## C1 — what history commits on each terminal outcome -/

/-- A stop signal that is never set. -/
def readsFalse : Nat → Bool := fun _ => false

/-- A stop signal that is already set at the first check. -/
def readsTrue : Nat → Bool := fun _ => true

/-- A `search_for_tool` rewrite that changes nothing and pushes no
status lines (no claim exercises the special case). -/
def rewriteId : String → String × List String := fun s => (s, [])

/-- C1 amended: the `finally` block commits the working message list
for every terminal type EXCEPT `error` (line 672's
`if final_event_type not in ["error"]`): an `error` run leaves the
committed history exactly as before, but a `stopped` run replaces it
with the working list, just as `finish` does. -/
theorem c1_history_commit_rule :
    ∀ (adapter : List Message → AdapterRun) (tools : List (String × ToolFn))
      (reads : Nat → Bool) (rewrite : String → String × List String)
      (histBefore initialMessages : List Message) (t0 : Nat),
      ((run_generation_in_thread adapter tools reads rewrite histBefore initialMessages
          t0).finalType = "error" →
        (run_generation_in_thread adapter tools reads rewrite histBefore initialMessages
          t0).committed = histBefore) ∧
      ((run_generation_in_thread adapter tools reads rewrite histBefore initialMessages
          t0).finalType ≠ "error" →
        (run_generation_in_thread adapter tools reads rewrite histBefore initialMessages
          t0).committed =
          (generation_cycles adapter tools reads rewrite max_tool_cycles
            ⟨initialMessages, [], 0, t0, "", 0⟩).msgs) := by
  intro adapter tools reads rewrite histBefore initialMessages t0
  constructor
  · intro h
    simp only [run_generation_in_thread] at h ⊢
    simp [h]
  · intro h
    simp only [run_generation_in_thread] at h ⊢
    simp [h]

/-- The committed history of the C1 counterexample run: an untouched
prior history of one user turn, a nonempty system prompt, an adapter
that never gets to produce anything because the stop signal is
already set at the first check — the run terminates `stopped`. -/
def histC1 : List Message := [{ role := "user", content := "hello" }]

def runC1 : RunResult :=
  run_generation_in_thread (fun _ => ⟨[], none⟩) [] readsTrue rewriteId histC1
    (prepare_messages_for_api "Be helpful." histC1) 0

/-- C1 counterexample: this run terminates with the `stopped`
terminal event, yet its committed history is NOT the history from
before the run — the working copy (here: the system-prompt-prepended
message list) is committed, contradicting the claim that a `stopped`
run leaves history byte-for-byte identical. -/
theorem c1_counterexample :
    runC1.finalType = "stopped" ∧ runC1.committed ≠ histC1 := by
  constructor
  · rfl
  · intro h
    have h2 : runC1.committed.length = 2 := rfl
    rw [h] at h2
    have h1 : histC1.length = 1 := rfl
    omega

/-- C1 witness: a run whose adapter reports `error` commits nothing —
the committed history equals the prior history. -/
theorem c1_witness :
    (run_generation_in_thread (fun _ => ⟨[ClientEvent.errorEv "boom"], none⟩) [] readsFalse
      rewriteId histC1 (prepare_messages_for_api "Be helpful." histC1) 0).committed =
      histC1 :=
  (c1_history_commit_rule (fun _ => ⟨[ClientEvent.errorEv "boom"], none⟩) [] readsFalse
    rewriteId histC1 (prepare_messages_for_api "Be helpful." histC1) 0).1 rfl

/-! ## C6 — exactly one terminal event then the end marker -/

/-- Queue items that are neither a terminal event nor the
end-of-stream marker. -/
def goodItem : SseItem → Bool
  | .terminalI _ _ => false
  | .endMark => false
  | _ => true

/-- `q'` extends `q` by ordinary (non-terminal, non-marker) items. -/
def QExt (q q' : List SseItem) : Prop :=
  ∃ tail, q' = q ++ tail ∧ tail.all goodItem = true

theorem qext_refl (q : List SseItem) : QExt q q := ⟨[], by simp, rfl⟩

theorem qext_push {q q' : List SseItem} (h : QExt q q') (l : List SseItem)
    (hl : l.all goodItem = true) : QExt q (q' ++ l) := by
  obtain ⟨t, ht, hg⟩ := h
  exact ⟨t ++ l, by rw [ht, List.append_assoc], by simp [List.all_append, hg, hl]⟩

theorem qext_trans {q q' q'' : List SseItem} (h : QExt q q') (h' : QExt q' q'') :
    QExt q q'' := by
  obtain ⟨t, ht, hg⟩ := h
  obtain ⟨t', ht', hg'⟩ := h'
  exact ⟨t ++ t', by rw [ht', ht, List.append_assoc],
    by simp [List.all_append, hg, hg']⟩

theorem processEvents_queue (reads : Nat → Bool) (evs : List ClientEvent)
    (raised : Option String) :
    ∀ (k : Nat) (acc : String) (q : List SseItem),
      QExt q (processEvents reads evs raised k acc q).queue := by
  induction evs with
  | nil => intro k acc q; exact qext_refl q
  | cons e rest ih =>
    intro k acc q
    by_cases hr : reads k
    · simp only [processEvents, hr, if_true]
      exact qext_refl q
    · cases e with
      | chunk t =>
        simp only [processEvents, hr, if_false]
        exact qext_trans (qext_push (qext_refl q) [SseItem.chunkI t] rfl) (ih _ _ _)
      | toolCalls calls txt =>
        simp only [processEvents, hr, if_false]
        exact qext_refl q
      | finish t =>
        simp only [processEvents, hr, if_false]
        exact qext_refl q
      | errorEv m =>
        simp only [processEvents, hr, if_false]
        exact qext_refl q
      | stopped t =>
        simp only [processEvents, hr, if_false]
        exact qext_refl q
      | ui kind p =>
        simp only [processEvents, hr, if_false]
        exact qext_trans (qext_push (qext_refl q) [SseItem.uiEvt (uiKindStr kind) p] rfl)
          (ih _ _ _)

theorem runToolCalls_items_good (tools : List (String × ToolFn))
    (rewrite : String → String × List String) (calls : List ToolCall) :
    (runToolCalls tools rewrite calls).2.all goodItem = true := by
  induction calls with
  | nil => rfl
  | cons c rest ih =>
    simp only [runToolCalls, List.all_append, Bool.and_eq_true]
    refine ⟨?_, ih⟩
    simp [List.all_append, List.all_map, goodItem]

theorem generation_cycle_step_inl_queue {adapter : List Message → AdapterRun}
    {tools : List (String × ToolFn)} {reads : Nat → Bool}
    {rewrite : String → String × List String} {st : LoopState} {e : LoopEnd}
    (h : generation_cycle_step adapter tools reads rewrite st = .inl e) :
    QExt st.queue e.queue := by
  have pe := processEvents_queue reads (adapter st.msgs).events (adapter st.msgs).raises
    (st.readIdx + 1) "" st.queue
  unfold generation_cycle_step at h
  simp only [] at h
  repeat' split at h
  all_goals cases h
  all_goals first
    | exact qext_refl _
    | exact pe

theorem generation_cycle_step_inr_queue {adapter : List Message → AdapterRun}
    {tools : List (String × ToolFn)} {reads : Nat → Bool}
    {rewrite : String → String × List String} {st st' : LoopState}
    (h : generation_cycle_step adapter tools reads rewrite st = .inr st') :
    QExt st.queue st'.queue := by
  have pe := processEvents_queue reads (adapter st.msgs).events (adapter st.msgs).raises
    (st.readIdx + 1) "" st.queue
  unfold generation_cycle_step at h
  simp only [] at h
  repeat' split at h
  all_goals cases h
  exact qext_push (qext_push pe _ (by simp [goodItem])) _
    (runToolCalls_items_good tools rewrite _)

theorem generation_cycle_step_inl_type {adapter : List Message → AdapterRun}
    {tools : List (String × ToolFn)} {reads : Nat → Bool}
    {rewrite : String → String × List String} {st : LoopState} {e : LoopEnd}
    (h : generation_cycle_step adapter tools reads rewrite st = .inl e) :
    e.finalType = "finish" ∨ e.finalType = "error" ∨ e.finalType = "stopped" := by
  unfold generation_cycle_step at h
  simp only [] at h
  repeat' split at h
  all_goals cases h
  all_goals first
    | exact Or.inl rfl
    | exact Or.inr (Or.inl rfl)
    | exact Or.inr (Or.inr rfl)

theorem generation_cycles_queue (adapter : List Message → AdapterRun)
    (tools : List (String × ToolFn)) (reads : Nat → Bool)
    (rewrite : String → String × List String) :
    ∀ (fuel : Nat) (st : LoopState),
      QExt st.queue (generation_cycles adapter tools reads rewrite fuel st).queue := by
  intro fuel
  induction fuel with
  | zero => intro st; exact qext_refl _
  | succ fuel ih =>
    intro st
    simp only [generation_cycles]
    cases hstep : generation_cycle_step adapter tools reads rewrite st with
    | inl e => exact generation_cycle_step_inl_queue hstep
    | inr st' =>
      exact qext_trans (generation_cycle_step_inr_queue hstep) (ih st')

theorem generation_cycles_type (adapter : List Message → AdapterRun)
    (tools : List (String × ToolFn)) (reads : Nat → Bool)
    (rewrite : String → String × List String) :
    ∀ (fuel : Nat) (st : LoopState),
      (generation_cycles adapter tools reads rewrite fuel st).finalType = "finish" ∨
      (generation_cycles adapter tools reads rewrite fuel st).finalType = "error" ∨
      (generation_cycles adapter tools reads rewrite fuel st).finalType = "stopped" := by
  intro fuel
  induction fuel with
  | zero => intro st; exact Or.inl rfl
  | succ fuel ih =>
    intro st
    simp only [generation_cycles]
    cases hstep : generation_cycle_step adapter tools reads rewrite st with
    | inl e => exact generation_cycle_step_inl_type hstep
    | inr st' => exact ih st'

/-- C6: every run — however it terminates — pushes a queue that is a
body of ordinary progress items followed by exactly one terminal
event (of type `finish`, `error` or `stopped`) and exactly one
end-of-stream marker; the `is_generating` flag is cleared and a
best-effort state save is requested. -/
theorem c6_terminal_event_discipline :
    ∀ (adapter : List Message → AdapterRun) (tools : List (String × ToolFn))
      (reads : Nat → Bool) (rewrite : String → String × List String)
      (histBefore initialMessages : List Message) (t0 : Nat),
      ∃ body ty c,
        (run_generation_in_thread adapter tools reads rewrite histBefore initialMessages
          t0).queue = body ++ [SseItem.terminalI ty c, SseItem.endMark] ∧
        body.all goodItem = true ∧
        (ty = "finish" ∨ ty = "error" ∨ ty = "stopped") ∧
        (run_generation_in_thread adapter tools reads rewrite histBefore initialMessages
          t0).isGeneratingAfter = false ∧
        (run_generation_in_thread adapter tools reads rewrite histBefore initialMessages
          t0).saved = true := by
  intro adapter tools reads rewrite histBefore initialMessages t0
  obtain ⟨tail, htail, hgood⟩ := generation_cycles_queue adapter tools reads rewrite
    max_tool_cycles ⟨initialMessages, [], 0, t0, "", 0⟩
  simp only [] at htail
  refine ⟨(generation_cycles adapter tools reads rewrite max_tool_cycles
      ⟨initialMessages, [], 0, t0, "", 0⟩).queue,
    (generation_cycles adapter tools reads rewrite max_tool_cycles
      ⟨initialMessages, [], 0, t0, "", 0⟩).finalType,
    (generation_cycles adapter tools reads rewrite max_tool_cycles
      ⟨initialMessages, [], 0, t0, "", 0⟩).finalContent, rfl, ?_, ?_, rfl, rfl⟩
  · rw [htail]
    simpa using hgood
  · exact generation_cycles_type adapter tools reads rewrite max_tool_cycles _

/-! ## C2 — the cycle budget -/

theorem generation_cycles_succ_inl {adapter : List Message → AdapterRun}
    {tools : List (String × ToolFn)} {reads : Nat → Bool}
    {rewrite : String → String × List String} {st : LoopState} {e : LoopEnd}
    (h : generation_cycle_step adapter tools reads rewrite st = .inl e) (fuel : Nat) :
    generation_cycles adapter tools reads rewrite (fuel + 1) st = e := by
  have hu : generation_cycles adapter tools reads rewrite (fuel + 1) st =
      match generation_cycle_step adapter tools reads rewrite st with
      | .inl e => e
      | .inr st' => generation_cycles adapter tools reads rewrite fuel st' := rfl
  rw [hu, h]

theorem generation_cycles_succ_inr {adapter : List Message → AdapterRun}
    {tools : List (String × ToolFn)} {reads : Nat → Bool}
    {rewrite : String → String × List String} {st st' : LoopState}
    (h : generation_cycle_step adapter tools reads rewrite st = .inr st') (fuel : Nat) :
    generation_cycles adapter tools reads rewrite (fuel + 1) st =
      generation_cycles adapter tools reads rewrite fuel st' := by
  have hu : generation_cycles adapter tools reads rewrite (fuel + 1) st =
      match generation_cycle_step adapter tools reads rewrite st with
      | .inl e => e
      | .inr st'' => generation_cycles adapter tools reads rewrite fuel st'' := rfl
  rw [hu, h]

/-- Under an adapter that always ends its stream with a (nonempty)
`tool_calls` event and an unset stop signal, every cycle `continue`s
into the next one, incrementing the cycle counter and recording the
event's text. -/
theorem c2_step {adapter : List Message → AdapterRun} {tools : List (String × ToolFn)}
    {rewrite : String → String × List String}
    (h : ∀ msgs, ∃ calls txt,
      adapter msgs = ⟨[ClientEvent.toolCalls calls txt], none⟩ ∧ calls ≠ [])
    (st : LoopState) :
    ∃ st', generation_cycle_step adapter tools readsFalse rewrite st = .inr st' ∧
      st'.cyclesDone = st.cyclesDone + 1 ∧
      ∃ txt : Option String, st'.lastText = txt.getD "" ∧
        ∃ calls, adapter st.msgs = ⟨[ClientEvent.toolCalls calls txt], none⟩ := by
  obtain ⟨calls, txt, hA, hne⟩ := h st.msgs
  cases calls with
  | nil => exact absurd rfl hne
  | cons c cs =>
    have hstep : generation_cycle_step adapter tools readsFalse rewrite st = Sum.inr
        { msgs := st.msgs ++
            [{ role := "assistant", content := txt.getD "", tool_calls := c :: cs,
               timestamp := some st.tick }] ++ (runToolCalls tools rewrite (c :: cs)).1
        , queue := (st.queue ++
            [SseItem.statusI ("Executing " ++ toString (c :: cs).length ++ " tool(s)...")]) ++
            (runToolCalls tools rewrite (c :: cs)).2
        , readIdx := st.readIdx + 1 + 1 + 1
        , tick := st.tick + 1
        , lastText := txt.getD ""
        , cyclesDone := st.cyclesDone + 1 } := by
      simp [generation_cycle_step, hA, processEvents, readsFalse]
    exact ⟨_, hstep, rfl, txt, rfl, c :: cs, hA⟩

theorem c2_go {adapter : List Message → AdapterRun} {tools : List (String × ToolFn)}
    {rewrite : String → String × List String}
    (h : ∀ msgs, ∃ calls txt,
      adapter msgs = ⟨[ClientEvent.toolCalls calls txt], none⟩ ∧ calls ≠ []) :
    ∀ (fuel : Nat) (st : LoopState), 0 < fuel →
      (generation_cycles adapter tools readsFalse rewrite fuel st).cyclesDone =
        st.cyclesDone + fuel ∧
      (generation_cycles adapter tools readsFalse rewrite fuel st).finalType = "finish" ∧
      ∃ msgsLast calls txt,
        adapter msgsLast = ⟨[ClientEvent.toolCalls calls txt], none⟩ ∧
        (generation_cycles adapter tools readsFalse rewrite fuel st).finalContent =
          txt.getD "" := by
  intro fuel
  induction fuel with
  | zero => intro st h0; exact absurd h0 (lt_irrefl 0)
  | succ fuel ih =>
    intro st _
    obtain ⟨st', hstep, hcy, txt, hlast, calls, hA⟩ := c2_step h st
    rw [generation_cycles_succ_inr hstep]
    cases fuel with
    | zero =>
      refine ⟨?_, ?_, st.msgs, calls, txt, hA, ?_⟩
      · simp only [generation_cycles]
        omega
      · simp [generation_cycles]
      · simpa [generation_cycles] using hlast
    | succ n =>
      obtain ⟨hc, hf, mL, cL, tL, hAL, hcont⟩ := ih st' (Nat.succ_pos n)
      exact ⟨by omega, hf, mL, cL, tL, hAL, hcont⟩

/-- C2: with an adapter whose every stream terminates in a (nonempty)
`tool_calls` event and never `finish`, and no stop request, the loop
runs exactly `max_tool_cycles` (= 5) cycles and then terminates as a
`finish` (not an error), its final content being the text carried by
the `tool_calls` event of the last cycle. -/
theorem c2_cycle_budget (adapter : List Message → AdapterRun)
    (tools : List (String × ToolFn)) (rewrite : String → String × List String)
    (histBefore initialMessages : List Message) (t0 : Nat)
    (h : ∀ msgs, ∃ calls txt,
      adapter msgs = ⟨[ClientEvent.toolCalls calls txt], none⟩ ∧ calls ≠ []) :
    (run_generation_in_thread adapter tools readsFalse rewrite histBefore initialMessages
      t0).cyclesUsed = max_tool_cycles ∧
    (run_generation_in_thread adapter tools readsFalse rewrite histBefore initialMessages
      t0).finalType = "finish" ∧
    ∃ msgsLast calls txt,
      adapter msgsLast = ⟨[ClientEvent.toolCalls calls txt], none⟩ ∧
      (run_generation_in_thread adapter tools readsFalse rewrite histBefore initialMessages
        t0).finalContent = txt.getD "" := by
  obtain ⟨hc, hf, mL, cL, tL, hAL, hcont⟩ := c2_go h max_tool_cycles
    ⟨initialMessages, [], 0, t0, "", 0⟩ (by decide)
  exact ⟨by simpa using hc, hf, mL, cL, tL, hAL, hcont⟩

/-- An adapter that always requests one tool call. -/
def adapterLoops : List Message → AdapterRun := fun _ =>
  ⟨[ClientEvent.toolCalls [⟨"id0", "noop", Json.jobj JsonObj.nil⟩] (some "cycle text")], none⟩

/-- C2 witness: the always-tool-calls adapter exhausts exactly the
5-cycle budget and ends as `finish`. -/
theorem c2_witness :
    (run_generation_in_thread adapterLoops [] readsFalse rewriteId [] [] 0).cyclesUsed =
      max_tool_cycles ∧
    (run_generation_in_thread adapterLoops [] readsFalse rewriteId [] [] 0).finalType =
      "finish" ∧
    ∃ msgsLast calls txt,
      adapterLoops msgsLast = ⟨[ClientEvent.toolCalls calls txt], none⟩ ∧
      (run_generation_in_thread adapterLoops [] readsFalse rewriteId [] [] 0).finalContent =
        txt.getD "" :=
  c2_cycle_budget adapterLoops [] rewriteId [] [] 0
    (fun _ => ⟨[⟨"id0", "noop", Json.jobj JsonObj.nil⟩], some "cycle text", rfl,
      List.cons_ne_nil _ _⟩)

/-! ## C5 — the tool round trip -/

/-- The `tool` message built for one executed call (generic path,
lines 636-640). -/
def toolMsgOf (tools : List (String × ToolFn)) (c : ToolCall) : Message :=
  { role := "tool", content := execute_tool tools c.name c.arguments, name := some c.name }

/-- The `tool_result` queue item pushed for one executed call. -/
def toolResultItemOf (tools : List (String × ToolFn)) (c : ToolCall) : SseItem :=
  SseItem.toolResultI c.name (previewOf (execute_tool tools c.name c.arguments))

/-- The assistant message carrying a cycle's tool-call request. -/
def assistantCallMsg (txt : String) (calls : List ToolCall) (tick : Nat) : Message :=
  { role := "assistant", content := txt, tool_calls := calls, timestamp := some tick }

/-- The final assistant message of a finishing cycle. -/
def assistantFinalMsg (txt : String) (tick : Nat) : Message :=
  { role := "assistant", content := txt, timestamp := some tick }

theorem runToolCalls_no_search (tools : List (String × ToolFn))
    (rewrite : String → String × List String) :
    ∀ (calls : List ToolCall), (∀ c ∈ calls, c.name ≠ "search_for_tool") →
      runToolCalls tools rewrite calls =
        (calls.map (toolMsgOf tools), calls.map (toolResultItemOf tools)) := by
  intro calls
  induction calls with
  | nil => intro _; rfl
  | cons c rest ih =>
    intro hns
    have hc : c.name ≠ "search_for_tool" := hns c (List.mem_cons_self c rest)
    simp only [runToolCalls, if_neg hc]
    rw [ih (fun d hd => hns d (List.mem_cons_of_mem c hd))]
    simp [toolMsgOf, toolResultItemOf]

/-- C5: a cycle that receives one `toolCalls` event appends exactly
one assistant message carrying the calls and the preceding text,
executes the calls in the provider's order (none being the reserved
discovery tool), appends exactly one `tool` message per call — in
the same order, named after the tool, containing the string result —
and re-enters the adapter; when the next stream finishes, the
committed history is: the original messages, the assistant tool-call
message, the tool messages in order, the final assistant message. -/
theorem c5_tool_round_trip (adapter : List Message → AdapterRun)
    (tools : List (String × ToolFn)) (rewrite : String → String × List String)
    (histBefore msgs0 : List Message) (calls : List ToolCall) (txt txt2 : String) (t0 : Nat)
    (hne : calls ≠ [])
    (hns : ∀ c ∈ calls, c.name ≠ "search_for_tool")
    (hA1 : adapter msgs0 = ⟨[ClientEvent.toolCalls calls (some txt)], none⟩)
    (hA2 : adapter (msgs0 ++ [assistantCallMsg txt calls t0] ++
        calls.map (toolMsgOf tools)) = ⟨[ClientEvent.finish txt2], none⟩) :
    (run_generation_in_thread adapter tools readsFalse rewrite histBefore msgs0 t0).committed =
      msgs0 ++ [assistantCallMsg txt calls t0] ++ calls.map (toolMsgOf tools) ++
        [assistantFinalMsg txt2 (t0 + 1)] ∧
    (run_generation_in_thread adapter tools readsFalse rewrite histBefore msgs0 t0).finalType =
      "finish" := by
  cases calls with
  | nil => exact absurd rfl hne
  | cons c cs =>
    have hstep1 : generation_cycle_step adapter tools readsFalse rewrite
        ⟨msgs0, [], 0, t0, "", 0⟩ = Sum.inr
        ⟨msgs0 ++ [assistantCallMsg txt (c :: cs) t0] ++ (c :: cs).map (toolMsgOf tools),
         (([] : List SseItem) ++
            [SseItem.statusI ("Executing " ++ toString (c :: cs).length ++ " tool(s)...")]) ++
            (c :: cs).map (toolResultItemOf tools),
         0 + 1 + 1 + 1, t0 + 1, txt, 0 + 1⟩ := by
      simp [generation_cycle_step, hA1, processEvents, readsFalse,
        runToolCalls_no_search tools rewrite (c :: cs) hns, assistantCallMsg]
    have hstep2 : generation_cycle_step adapter tools readsFalse rewrite
        ⟨msgs0 ++ [assistantCallMsg txt (c :: cs) t0] ++ (c :: cs).map (toolMsgOf tools),
         (([] : List SseItem) ++
            [SseItem.statusI ("Executing " ++ toString (c :: cs).length ++ " tool(s)...")]) ++
            (c :: cs).map (toolResultItemOf tools),
         0 + 1 + 1 + 1, t0 + 1, txt, 0 + 1⟩ = Sum.inl
        ⟨"finish", txt2,
         (msgs0 ++ [assistantCallMsg txt (c :: cs) t0] ++ (c :: cs).map (toolMsgOf tools)) ++
           [assistantFinalMsg txt2 (t0 + 1)],
         (([] : List SseItem) ++
            [SseItem.statusI ("Executing " ++ toString (c :: cs).length ++ " tool(s)...")]) ++
            (c :: cs).map (toolResultItemOf tools),
         t0 + 1 + 1, 0 + 1 + 1⟩ := by
      unfold generation_cycle_step
      dsimp only
      rw [hA2]
      simp [processEvents, readsFalse, assistantFinalMsg]
    have hrun : generation_cycles adapter tools readsFalse rewrite max_tool_cycles
        ⟨msgs0, [], 0, t0, "", 0⟩ =
        ⟨"finish", txt2,
         (msgs0 ++ [assistantCallMsg txt (c :: cs) t0] ++ (c :: cs).map (toolMsgOf tools)) ++
           [assistantFinalMsg txt2 (t0 + 1)],
         (([] : List SseItem) ++
            [SseItem.statusI ("Executing " ++ toString (c :: cs).length ++ " tool(s)...")]) ++
            (c :: cs).map (toolResultItemOf tools),
         t0 + 1 + 1, 0 + 1 + 1⟩ := by
      show generation_cycles adapter tools readsFalse rewrite (4 + 1)
        ⟨msgs0, [], 0, t0, "", 0⟩ = _
      rw [generation_cycles_succ_inr hstep1]
      show generation_cycles adapter tools readsFalse rewrite (3 + 1) _ = _
      rw [generation_cycles_succ_inl hstep2]
    constructor
    · show (if (generation_cycles adapter tools readsFalse rewrite max_tool_cycles
          ⟨msgs0, [], 0, t0, "", 0⟩).finalType = "error" then histBefore
        else (generation_cycles adapter tools readsFalse rewrite max_tool_cycles
          ⟨msgs0, [], 0, t0, "", 0⟩).msgs) = _
      rw [hrun]
      simp [List.append_assoc]
    · show (generation_cycles adapter tools readsFalse rewrite max_tool_cycles
        ⟨msgs0, [], 0, t0, "", 0⟩).finalType = "finish"
      rw [hrun]

/-- An `echo(x)` tool returning its single string argument unchanged. -/
def echoTool : ToolFn := fun args =>
  match args with
  | Json.jobj (JsonObj.cons _ (Json.jstr s) JsonObj.nil) => ToolOutcome.ok (PyValue.str s)
  | _ => ToolOutcome.exn "bad args"

def echoArgs : Json := Json.jobj (JsonObj.cons "x" (Json.jstr "hi") JsonObj.nil)

def echoCall : ToolCall := ⟨"call_1", "echo", echoArgs⟩

def echoTools : List (String × ToolFn) := [("echo", echoTool)]

/-- An adapter stub: one `toolCalls` event for `echo`, then `finish`. -/
def echoAdapter : List Message → AdapterRun := fun msgs =>
  if msgs.length = 1 then ⟨[ClientEvent.toolCalls [echoCall] (some "calling echo")], none⟩
  else ⟨[ClientEvent.finish "done"], none⟩

def msgs0C5 : List Message := [{ role := "user", content := "please echo hi" }]

/-- C5 witness: the echo round trip commits exactly original message,
assistant tool-call message, one tool message, final assistant
message. -/
theorem c5_witness :
    (run_generation_in_thread echoAdapter echoTools readsFalse rewriteId [] msgs0C5
      0).committed =
      msgs0C5 ++ [assistantCallMsg "calling echo" [echoCall] 0] ++
        [echoCall].map (toolMsgOf echoTools) ++ [assistantFinalMsg "done" (0 + 1)] ∧
    (run_generation_in_thread echoAdapter echoTools readsFalse rewriteId [] msgs0C5
      0).finalType = "finish" :=
  c5_tool_round_trip echoAdapter echoTools rewriteId [] msgs0C5 [echoCall] "calling echo"
    "done" 0 (List.cons_ne_nil _ _)
    (by
      intro d hd
      simp only [List.mem_singleton] at hd
      subst hd
      decide)
    rfl rfl

/-! ## C8 — per-frame cancellation checks in the three stream loops -/

def isChunkEv : ClientEvent → Bool
  | .chunk _ => true
  | _ => false

/-- Concatenation of the text of the `chunk` events of a stream —
"the text accumulated so far". -/
def chunkConcat : List ClientEvent → String
  | [] => ""
  | ClientEvent.chunk s :: t => s ++ chunkConcat t
  | _ :: t => chunkConcat t

/-- A Google frame that neither errors nor terminates. -/
def gCleanFrame (f : GFrame) : Bool := (gAbnormal f).isNone

/-- An Ollama line that neither errors nor carries the done marker. -/
def oCleanLine : OLine → Bool
  | .blank => true
  | .badJson _ => true
  | .chunkL c => c.errorKey.isNone && !c.done

/-- An OpenRouter frame without a finish reason. -/
def orCleanFrame (f : ORFrame) : Bool := f.finishReason.isNone

theorem google_stream_stop (tms : Nat) :
    ∀ (frames : List GFrame) (n : Nat) (acc : String) (calls : List ToolCall),
      n < frames.length → (frames.take n).all gCleanFrame = true →
      ∃ lead, google_stream_loop tms frames n acc calls =
        lead ++ [ClientEvent.stopped (acc ++ chunkConcat lead)] ∧
        lead.all isChunkEv = true := by
  intro frames
  induction frames with
  | nil => intro n acc calls hn _; exact absurd hn (by simp)
  | cons f rest ih =>
    intro n acc calls hn hclean
    cases n with
    | zero =>
      exact ⟨[], by simp [google_stream_loop, chunkConcat, String.append_empty], rfl⟩
    | succ m =>
      have hm : m < rest.length := by simpa using hn
      simp only [List.take_succ_cons, List.all_cons, Bool.and_eq_true] at hclean
      have hf : gAbnormal f = none := by
        have := hclean.1
        unfold gCleanFrame at this
        exact Option.isNone_iff_eq_none.mp this
      simp only [google_stream_loop, hf]
      cases ht : f.text with
      | none =>
        obtain ⟨lead, heq, hch⟩ := ih m acc (calls ++ googleMkCalls tms calls.length f.calls)
          hm hclean.2
        exact ⟨lead, heq, hch⟩
      | some t =>
        by_cases htt : t = ""
        · subst htt
          simp only [if_pos rfl]
          obtain ⟨lead, heq, hch⟩ := ih m acc (calls ++ googleMkCalls tms calls.length f.calls)
            hm hclean.2
          exact ⟨lead, heq, hch⟩
        · simp only [if_neg htt]
          obtain ⟨lead, heq, hch⟩ := ih m (acc ++ t)
            (calls ++ googleMkCalls tms calls.length f.calls) hm hclean.2
          refine ⟨ClientEvent.chunk t :: lead, ?_, by simp [isChunkEv, hch]⟩
          rw [heq]
          simp [chunkConcat, String.append_assoc]

/-- One text-bearing step of a stream loop whose recursion already
carries the appended text: yielding the (possibly empty, hence
unyielded) chunk preserves the stopped-payload shape. -/
theorem lead_step {t : String} {tail lead : List ClientEvent} {base : String}
    (htail : tail = lead ++ [ClientEvent.stopped (base ++ t ++ chunkConcat lead)])
    (hch : lead.all isChunkEv = true) :
    ∃ lead', (if t = "" then tail else ClientEvent.chunk t :: tail) =
      lead' ++ [ClientEvent.stopped (base ++ chunkConcat lead')] ∧
      lead'.all isChunkEv = true := by
  by_cases ht : t = ""
  · subst ht
    refine ⟨lead, ?_, hch⟩
    rw [if_pos rfl, htail, String.append_empty]
  · refine ⟨ClientEvent.chunk t :: lead, ?_, by simp [isChunkEv, hch]⟩
    rw [if_neg ht, htail]
    simp [chunkConcat, String.append_assoc]

theorem ollama_stream_stop (tms : Nat) :
    ∀ (lines : List OLine) (n : Nat) (acc : String) (calls : List ToolCall),
      n < lines.length → (lines.take n).all oCleanLine = true →
      ∃ lead, ollama_stream_loop tms lines n acc calls =
        lead ++ [ClientEvent.stopped (acc ++ chunkConcat lead)] ∧
        lead.all isChunkEv = true := by
  intro lines
  induction lines with
  | nil => intro n acc calls hn _; exact absurd hn (by simp)
  | cons l rest ih =>
    intro n acc calls hn hclean
    cases n with
    | zero =>
      exact ⟨[], by simp [ollama_stream_loop, chunkConcat, String.append_empty], rfl⟩
    | succ m =>
      have hm : m < rest.length := by simpa using hn
      simp only [List.take_succ_cons, List.all_cons, Bool.and_eq_true] at hclean
      cases l with
      | blank =>
        simp only [ollama_stream_loop]
        exact ih m acc calls hm hclean.2
      | badJson raw =>
        simp only [ollama_stream_loop]
        exact ih m acc calls hm hclean.2
      | chunkL c =>
        have hcl := hclean.1
        unfold oCleanLine at hcl
        simp only [Bool.and_eq_true, Bool.not_eq_true'] at hcl
        have herr : c.errorKey = none := Option.isNone_iff_eq_none.mp hcl.1
        have hdone : c.done = false := hcl.2
        simp only [ollama_stream_loop, herr, hdone, if_false, Bool.false_eq_true]
        obtain ⟨lead, heq, hch⟩ := ih m
          (acc ++ (if c.msgRole = some "assistant" then c.msgContent.getD "" else ""))
          (calls ++ ollamaMkCalls tms calls.length c.msgToolCalls) hm hclean.2
        exact lead_step heq hch

theorem openrouter_stream_stop (jsonParse : String → Option Json) :
    ∀ (frames : List ORFrame) (n : Nat) (acc : String) (agg : List (Nat × AggEntry)),
      n < frames.length → (frames.take n).all orCleanFrame = true →
      ∃ lead, openrouter_stream_loop jsonParse frames n acc agg =
        lead ++ [ClientEvent.stopped (acc ++ chunkConcat lead)] ∧
        lead.all isChunkEv = true := by
  intro frames
  induction frames with
  | nil => intro n acc agg hn _; exact absurd hn (by simp)
  | cons f rest ih =>
    intro n acc agg hn hclean
    cases n with
    | zero =>
      exact ⟨[], by simp [openrouter_stream_loop, chunkConcat, String.append_empty], rfl⟩
    | succ m =>
      have hm : m < rest.length := by simpa using hn
      simp only [List.take_succ_cons, List.all_cons, Bool.and_eq_true] at hclean
      have hfr : f.finishReason = none := by
        have := hclean.1
        unfold orCleanFrame at this
        exact Option.isNone_iff_eq_none.mp this
      simp only [openrouter_stream_loop, hfr]
      cases hc : f.content with
      | none =>
        obtain ⟨lead, heq, hch⟩ := ih m (acc ++ "") (f.toolChunks.foldl orAggStep agg)
          hm hclean.2
        rw [String.append_empty] at heq
        exact ⟨lead, by simpa using heq, hch⟩
      | some t =>
        by_cases htt : t = ""
        · subst htt
          simp only [Option.getD_some, if_pos rfl]
          obtain ⟨lead, heq, hch⟩ := ih m (acc ++ "") (f.toolChunks.foldl orAggStep agg)
            hm hclean.2
          rw [String.append_empty] at heq
          exact ⟨lead, by simpa using heq, hch⟩
        · simp only [Option.getD_some, if_neg htt]
          obtain ⟨lead, heq, hch⟩ := ih m (acc ++ t) (f.toolChunks.foldl orAggStep agg)
            hm hclean.2
          refine ⟨ClientEvent.chunk t :: lead, ?_, by simp [isChunkEv, hch]⟩
          rw [heq]
          simp [chunkConcat, String.append_assoc]

/-- C8: in each of the three adapters' stream loops, the cancellation
signal is checked once per inbound frame; if it becomes set after `n`
frames while the stream still has frames left (and the frames read so
far were ordinary data frames), the loop stops reading and yields —
after the chunks already forwarded — exactly one `stopped` event
whose payload is precisely the text accumulated so far (the
concatenation of the yielded chunks). -/
theorem c8_stream_cancellation :
    (∀ (tms : Nat) (frames : List GFrame) (n : Nat),
      n < frames.length → (frames.take n).all gCleanFrame = true →
      ∃ lead, google_stream_loop tms frames n "" [] =
        lead ++ [ClientEvent.stopped ("" ++ chunkConcat lead)] ∧
        lead.all isChunkEv = true) ∧
    (∀ (tms : Nat) (lines : List OLine) (n : Nat),
      n < lines.length → (lines.take n).all oCleanLine = true →
      ∃ lead, ollama_stream_loop tms lines n "" [] =
        lead ++ [ClientEvent.stopped ("" ++ chunkConcat lead)] ∧
        lead.all isChunkEv = true) ∧
    (∀ (jsonParse : String → Option Json) (frames : List ORFrame) (n : Nat),
      n < frames.length → (frames.take n).all orCleanFrame = true →
      ∃ lead, openrouter_stream_loop jsonParse frames n "" [] =
        lead ++ [ClientEvent.stopped ("" ++ chunkConcat lead)] ∧
        lead.all isChunkEv = true) :=
  ⟨fun tms frames n hn hc => google_stream_stop tms frames n "" [] hn hc,
   fun tms lines n hn hc => ollama_stream_stop tms lines n "" [] hn hc,
   fun jp frames n hn hc => openrouter_stream_stop jp frames n "" [] hn hc⟩

def gFrameA : GFrame := { finishReason := none, text := some "a" }

def gFrameB : GFrame := { finishReason := none, text := some "b" }

def gFramesW : List GFrame := [gFrameA, gFrameB]

def oChunkA : OChunk := { msgRole := some "assistant", msgContent := some "a" }

def oChunkB : OChunk := { msgRole := some "assistant", msgContent := some "b", done := true }

def oLinesW : List OLine := [OLine.chunkL oChunkA, OLine.chunkL oChunkB]

def orFrameA : ORFrame := { content := some "a" }

def orFrameB : ORFrame := { content := some "b", finishReason := some "stop" }

def orFramesW : List ORFrame := [orFrameA, orFrameB]

/-- C8 witness: with the signal set after one frame of a two-frame
stream, each of the three loops yields its first chunk and then a
single `stopped` event carrying exactly that chunk's text. -/
theorem c8_witness :
    (∃ lead, google_stream_loop 0 gFramesW 1 "" [] =
      lead ++ [ClientEvent.stopped ("" ++ chunkConcat lead)] ∧
      lead.all isChunkEv = true) ∧
    (∃ lead, ollama_stream_loop 0 oLinesW 1 "" [] =
      lead ++ [ClientEvent.stopped ("" ++ chunkConcat lead)] ∧
      lead.all isChunkEv = true) ∧
    (∃ lead, openrouter_stream_loop (fun _ => none) orFramesW 1 "" [] =
      lead ++ [ClientEvent.stopped ("" ++ chunkConcat lead)] ∧
      lead.all isChunkEv = true) :=
  ⟨c8_stream_cancellation.1 0 gFramesW 1 (by decide) (by decide),
   c8_stream_cancellation.2.1 0 oLinesW 1 (by decide) (by decide),
   c8_stream_cancellation.2.2 (fun _ => none) orFramesW 1 (by decide) (by decide)⟩

end ChatCore
